import Mathlib

/-!
Shallow embedding of the image-processing pipeline in imageCropper.cu:
three per-pixel kernels (RGB-to-gray reduction, rectangular crop, shadow
and highlight adjustment), the orchestration in main (centered-square crop
window computation and kernel sequencing), the PPM loader's error checks,
and the batch loop's abort-on-first-error policy.

Modelling conventions:
  - Pixel buffers are flat row-major byte lists (List Nat); reads use
    List.getD with default 0, and the theorems carry the bounds needed so
    that every read the source performs is in range.
  - A CUDA kernel launch over a grid covering the full index domain, with
    the guard on x and y at the top of each kernel body, is embedded as a
    function from the source buffer to the list of the values that the
    in-range work items store, in index order (the grid in main always
    covers the domain, and the guard makes the overshoot items no-ops).
  - The binary32 arithmetic of the kernels is embedded as exact rational
    arithmetic; the C cast static_cast to unsigned char truncates toward
    zero, and is undefined for values outside the representable range, so
    it is embedded as an Option that is none out of range.
-/

namespace ImageCropper

/-- The C cast of a nonnegative float value to unsigned char: truncation
toward zero, defined only when the truncated value fits in the type.
Out-of-range conversion is undefined behavior in C++, embedded as none. -/
def floatToUChar (q : ℚ) : Option ℕ :=
  if 0 ≤ q ∧ q < 256 then some ⌊q⌋.toNat else none

/-- Sequence a list of optional bytes: some list exactly when every
element is defined (a kernel whose every store is a defined value). -/
def seqOpt : List (Option ℕ) → Option (List ℕ)
  | [] => some []
  | o :: rest =>
    match o with
    | none => none
    | some a =>
      match seqOpt rest with
      | none => none
      | some as => some (a :: as)

/-- Body of rgbToGrayKernel for an in-range work item (x, y): reads the
three channel bytes at rgbIdx = idx * 3 with idx = y * width + x and
stores the weighted sum 0.299 r + 0.587 g + 0.114 b cast to a byte. -/
def rgbToGrayAt (rgb : List ℕ) (width : ℕ) (x y : ℕ) : Option ℕ :=
  let idx := y * width + x
  let rgbIdx := idx * 3
  let r : ℚ := rgb.getD rgbIdx 0
  let g : ℚ := rgb.getD (rgbIdx + 1) 0
  let b : ℚ := rgb.getD (rgbIdx + 2) 0
  floatToUChar ((299 / 1000) * r + (587 / 1000) * g + (114 / 1000) * b)

/-- rgbToGrayKernel over the whole width x height grid: the gray buffer,
with the pixel at flat index i = y * width + x produced by the work item
at (i mod width, i div width). -/
def rgbToGray (rgb : List ℕ) (width height : ℕ) : Option (List ℕ) :=
  seqOpt ((List.range (width * height)).map fun i =>
    rgbToGrayAt rgb width (i % width) (i / width))

/-- Body of cropKernel for an in-range work item (x, y): reads the source
at srcIdx = (y + offsetY) * srcWidth + (x + offsetX) and stores it at
dstIdx = y * dstWidth + x. -/
def cropAt (src : List ℕ) (srcWidth offsetX offsetY : ℕ) (x y : ℕ) : ℕ :=
  src.getD ((y + offsetY) * srcWidth + (x + offsetX)) 0

/-- cropKernel over the whole dstWidth x dstHeight grid (srcHeight is a
parameter of the kernel but unused by its body, as in the source). -/
def crop (src : List ℕ) (srcWidth srcHeight dstWidth dstHeight offsetX offsetY : ℕ) :
    List ℕ :=
  (List.range (dstWidth * dstHeight)).map fun i =>
    cropAt src srcWidth offsetX offsetY (i % dstWidth) (i / dstWidth)

/-- Body of adjustShadowsHighlightsKernel for one pixel: the shadow branch
(pixel at most 128) stores min(255, pixel * 1.1) cast to a byte; the
highlight branch stores max(0, pixel * 1.05) cast to a byte, with no
upper clamp before the cast. -/
def adjustPixel (pixel : ℕ) : Option ℕ :=
  if pixel ≤ 128 then
    floatToUChar (min 255 ((pixel : ℚ) * (11 / 10)))
  else
    floatToUChar (max 0 ((pixel : ℚ) * (21 / 20)))

/-- adjustShadowsHighlightsKernel over the whole width x height grid. -/
def adjustShadowsHighlights (img : List ℕ) (width height : ℕ) : Option (List ℕ) :=
  seqOpt ((List.range (width * height)).map fun i => adjustPixel (img.getD i 0))

/-- The crop window of the orchestrator, as a record: main computes
shorterSide, longerSide, offset = (longerSide - shorterSide) / 2, and
calls cropKernel with dstWidth = dstHeight = shorterSide and the argument
pair (offset, 0) for (offsetX, offsetY). -/
structure Rectangle where
  offsetX : ℕ
  offsetY : ℕ
  width : ℕ
  height : ℕ
  deriving DecidableEq

/-- The Rectangle main passes to cropKernel for a source of the given
width and height: offset = (longerSide - shorterSide) / 2 always as
offsetX, and offsetY always 0 (lines 129 to 142 of the source). -/
def cropRect (width height : ℕ) : Rectangle :=
  let shorterSide := min width height
  let longerSide := max width height
  let offset := (longerSide - shorterSide) / 2
  ⟨offset, 0, shorterSide, shorterSide⟩

/-- The per-image device pipeline of main: gray reduction, then the crop
with the Rectangle of cropRect, then shadow and highlight adjustment;
yields the final host buffer and its dimensions. The host round trip of
the gray buffer between the stages copies values unchanged. -/
def processBuffer (rgb : List ℕ) (width height : ℕ) :
    Option (List ℕ × ℕ × ℕ) :=
  match rgbToGray rgb width height with
  | none => none
  | some gray =>
    let r := cropRect width height
    let dst := crop gray width height r.width r.height r.offsetX r.offsetY
    match adjustShadowsHighlights dst r.width r.height with
    | none => none
    | some adjusted => some (adjusted, r.width, r.height)

/-- A PPM input file as the loader sees it after tokenization: the magic
string, the header integers, and the payload bytes. -/
structure PPMFile where
  magic : String
  width : ℕ
  height : ℕ
  maxVal : ℕ
  bytes : List ℕ
  deriving DecidableEq

/-- loadPPM: a missing or unopenable file throws, a magic other than P6
throws, otherwise the header and payload are read. The file system is a
map from names to optional contents. -/
def loadPPM (filename : String) (fs : String → Option PPMFile) :
    Except String PPMFile :=
  match fs filename with
  | none => .error ("Unable to open file " ++ filename)
  | some f => if f.magic ≠ "P6" then .error "Invalid PPM file" else .ok f

/-- Whether loadPPM succeeds on a file name. -/
def loadOk (fs : String → Option PPMFile) (filename : String) : Bool :=
  match loadPPM filename fs with
  | .ok _ => true
  | .error _ => false

/-- Outcome of the batch loop in main: the exit status, the input names
fully processed and written (in order), and the diagnostics printed to
the error stream. -/
structure BatchResult where
  exitSuccess : Bool
  written : List String
  diagnostics : List String
  deriving DecidableEq

/-- The batch loop of main: images are processed strictly in order; the
first exception (here: a load failure) escapes the loop to the catch
block, which prints one diagnostic and exits with failure, so no later
image is touched; if the loop completes, main exits with success. -/
def runBatch (fs : String → Option PPMFile) : List String → BatchResult
  | [] => ⟨true, [], []⟩
  | f :: rest =>
    match loadPPM f fs with
    | .error e =>
        ⟨false, [], ["Program error! The following exception occurred: " ++ e]⟩
    | .ok _ =>
        let r := runBatch fs rest
        ⟨r.exitSuccess, f :: r.written, r.diagnostics⟩

/-- The hard-wired input list of main. -/
def inputFiles : List String :=
  ["img1.ppm", "img2.ppm", "img3.ppm", "img4.ppm", "img5.ppm",
   "img6.ppm", "img7.ppm", "img8.ppm", "img9.ppm", "img10.ppm"]

/-- A file system for concrete batch runs: one well-formed P6 file, every
other name unopenable. -/
def sampleFS (name : String) : Option PPMFile :=
  if name = "img1.ppm" then some ⟨"P6", 1, 1, 255, [50, 60, 70]⟩ else none

/-! Helper lemmas about the embedding. -/

theorem seqOpt_map_some {l : List ℕ} {f : ℕ → Option ℕ} {g : ℕ → ℕ}
    (h : ∀ i ∈ l, f i = some (g i)) : seqOpt (l.map f) = some (l.map g) := by
  induction l with
  | nil => rfl
  | cons a l ih =>
    have ha := h a (List.mem_cons_self a l)
    have ih' := ih fun i hi => h i (List.mem_cons_of_mem a hi)
    simp only [List.map_cons, seqOpt, ha, ih']

theorem getD_range_map {g : ℕ → ℕ} {n i : ℕ} (h : i < n) :
    ((List.range n).map g).getD i 0 = g i := by
  rw [List.getD_eq_getElem?_getD, List.getElem?_map, List.getElem?_range h]
  rfl

theorem getD_le_of_all {l : List ℕ} {m : ℕ} (h : ∀ v ∈ l, v ≤ m) (i : ℕ) :
    l.getD i 0 ≤ m := by
  rw [List.getD_eq_getElem?_getD]
  rcases hlt : l[i]? with _ | v
  · exact Nat.zero_le m
  · exact h v (List.getElem?_mem hlt)

theorem getD_replicate_lt {n i v : ℕ} (h : i < n) :
    (List.replicate n v).getD i 0 = v := by
  rw [List.getD_eq_getElem?_getD, List.getElem?_replicate, if_pos h]
  rfl

theorem flat_index_lt {x y W H : ℕ} (hx : x < W) (hy : y < H) :
    y * W + x < W * H := by
  have h1 : (y + 1) * W ≤ H * W := Nat.mul_le_mul_right W (by omega)
  have h2 : (y + 1) * W = y * W + W := by ring
  have h3 : H * W = W * H := Nat.mul_comm H W
  omega

theorem flat_index_mod {x y W : ℕ} (hx : x < W) : (y * W + x) % W = x := by
  rw [Nat.add_comm, Nat.add_mul_mod_self_right, Nat.mod_eq_of_lt hx]

theorem flat_index_div {x y W : ℕ} (hx : x < W) : (y * W + x) / W = y := by
  rw [Nat.add_comm, Nat.add_mul_div_right _ _ (by omega : 0 < W),
    Nat.div_eq_of_lt hx, Nat.zero_add]

theorem grayArith_bounds {r g b : ℕ} (hr : r ≤ 255) (hg : g ≤ 255) (hb : b ≤ 255) :
    0 ≤ (299 / 1000 : ℚ) * r + (587 / 1000) * g + (114 / 1000) * b ∧
      (299 / 1000 : ℚ) * r + (587 / 1000) * g + (114 / 1000) * b ≤ 255 := by
  have hr' : (r : ℚ) ≤ 255 := by exact_mod_cast hr
  have hg' : (g : ℚ) ≤ 255 := by exact_mod_cast hg
  have hb' : (b : ℚ) ≤ 255 := by exact_mod_cast hb
  have h1 : (299 / 1000 : ℚ) * r ≤ (299 / 1000) * 255 :=
    mul_le_mul_of_nonneg_left hr' (by norm_num)
  have h2 : (587 / 1000 : ℚ) * g ≤ (587 / 1000) * 255 :=
    mul_le_mul_of_nonneg_left hg' (by norm_num)
  have h3 : (114 / 1000 : ℚ) * b ≤ (114 / 1000) * 255 :=
    mul_le_mul_of_nonneg_left hb' (by norm_num)
  constructor
  · positivity
  · linarith

/-- The gray kernel body on a buffer of bytes: defined, and equal to the
floor of the exact weighted sum of the three bytes it reads. -/
theorem rgbToGrayAt_eq {rgb : List ℕ} (hb : ∀ v ∈ rgb, v ≤ 255)
    (W x y : ℕ) :
    rgbToGrayAt rgb W x y =
      some (⌊(299 / 1000 : ℚ) * (rgb.getD ((y * W + x) * 3) 0)
        + (587 / 1000) * (rgb.getD ((y * W + x) * 3 + 1) 0)
        + (114 / 1000) * (rgb.getD ((y * W + x) * 3 + 2) 0)⌋).toNat := by
  have h := grayArith_bounds (getD_le_of_all hb ((y * W + x) * 3))
    (getD_le_of_all hb ((y * W + x) * 3 + 1)) (getD_le_of_all hb ((y * W + x) * 3 + 2))
  unfold rgbToGrayAt floatToUChar
  rw [if_pos ⟨h.1, lt_of_le_of_lt h.2 (by norm_num)⟩]

/-- The gray kernel body when the three bytes it reads are all v at most
255: the weights sum to one, so the stored value is exactly v. -/
theorem rgbToGrayAt_uniform {rgb : List ℕ} {W x y v : ℕ} (hv : v ≤ 255)
    (h0 : rgb.getD ((y * W + x) * 3) 0 = v)
    (h1 : rgb.getD ((y * W + x) * 3 + 1) 0 = v)
    (h2 : rgb.getD ((y * W + x) * 3 + 2) 0 = v) :
    rgbToGrayAt rgb W x y = some v := by
  simp only [rgbToGrayAt, floatToUChar]
  rw [h0, h1, h2]
  have hsum : (299 / 1000 : ℚ) * v + (587 / 1000) * v + (114 / 1000) * v = (v : ℚ) := by
    ring
  rw [hsum, if_pos ⟨by positivity, by exact_mod_cast Nat.lt_of_le_of_lt hv (by norm_num)⟩,
    Int.floor_natCast, Int.toNat_natCast]

/-- adjustPixel on a shadow-branch value: the product by 11 / 10 stays
under 255, so the stored value is its floor. -/
theorem adjustPixel_shadow {p : ℕ} (hp : p ≤ 128) :
    adjustPixel p = some (⌊(p : ℚ) * (11 / 10)⌋).toNat := by
  have hp' : (p : ℚ) ≤ 128 := by exact_mod_cast hp
  have hlt : (p : ℚ) * (11 / 10) ≤ 128 * (11 / 10) :=
    mul_le_mul_of_nonneg_right hp' (by norm_num)
  unfold adjustPixel floatToUChar
  rw [if_pos hp, min_eq_right (by linarith),
    if_pos ⟨by positivity, by linarith⟩]

/-! Claim theorems. -/

/-- Claim C1 (code bug): the claim says that when height exceeds width the
centering offset is passed as offsetY with offsetX zero; main instead
always passes the offset as offsetX and literal 0 as offsetY. Evaluated
at a portrait source of width 4, height 6: the offset (6 - 4) / 2 = 1
lands on the x axis of the crop call. -/
theorem cropRect_portrait_offset_applied_to_x :
    cropRect 4 6 = ⟨1, 0, 4, 4⟩ := rfl

/-- Claim C2 (code bug): the highlight branch applies only the lower clamp
max(0, pixel * 1.05) and casts without an upper clamp, so for an input
pixel of 255 the value 267.75 is out of the unsigned char range and the
conversion does not saturate to 255 (it is undefined in C++). -/
theorem adjust_saturation_missing_at_255 : adjustPixel 255 = none := by
  norm_num [adjustPixel, floatToUChar, max_def]

/-- Claim C3 (code bug): the stored value is not always at least the input
value: for an input pixel of 250 the highlight branch produces 262.5, out
of the unsigned char range, so no value at least 250 is validly stored
(the unclammed cast is undefined and on common semantics wraps far below
the input). -/
theorem adjust_brighten_broken_at_250 : adjustPixel 250 = none := by
  norm_num [adjustPixel, floatToUChar, max_def]

/-- Claim C4: for a 3-channel buffer of bytes, every in-range pixel of the
gray output is defined and equals the floor (truncation toward zero) of
0.299 R + 0.587 G + 0.114 B over the three channel bytes at that pixel,
and lies in the byte range. -/
theorem rgbToGray_stores_weighted_sum (rgb : List ℕ) (W H : ℕ)
    (hb : ∀ v ∈ rgb, v ≤ 255) (x y : ℕ) (hx : x < W) (hy : y < H) :
    ∃ gray, rgbToGray rgb W H = some gray ∧ gray.length = W * H ∧
      gray.getD (y * W + x) 0 =
        (⌊(299 / 1000 : ℚ) * (rgb.getD ((y * W + x) * 3) 0)
          + (587 / 1000) * (rgb.getD ((y * W + x) * 3 + 1) 0)
          + (114 / 1000) * (rgb.getD ((y * W + x) * 3 + 2) 0)⌋).toNat ∧
      gray.getD (y * W + x) 0 ≤ 255 := by
  have h : ∀ i ∈ List.range (W * H),
      rgbToGrayAt rgb W (i % W) (i / W) =
        some ((fun i => (⌊(299 / 1000 : ℚ) * (rgb.getD (i * 3) 0)
          + (587 / 1000) * (rgb.getD (i * 3 + 1) 0)
          + (114 / 1000) * (rgb.getD (i * 3 + 2) 0)⌋).toNat) i) := by
    intro i _
    rw [rgbToGrayAt_eq hb, Nat.div_add_mod' i W]
  refine ⟨(List.range (W * H)).map (fun i => (⌊(299 / 1000 : ℚ) * (rgb.getD (i * 3) 0)
    + (587 / 1000) * (rgb.getD (i * 3 + 1) 0)
    + (114 / 1000) * (rgb.getD (i * 3 + 2) 0)⌋).toNat), ?_, ?_, ?_, ?_⟩
  · unfold rgbToGray
    exact seqOpt_map_some h
  · simp
  · rw [getD_range_map (flat_index_lt hx hy)]
  · rw [getD_range_map (flat_index_lt hx hy)]
    have hbnds := grayArith_bounds (getD_le_of_all hb ((y * W + x) * 3))
      (getD_le_of_all hb ((y * W + x) * 3 + 1)) (getD_le_of_all hb ((y * W + x) * 3 + 2))
    have hfl : (⌊(299 / 1000 : ℚ) * (rgb.getD ((y * W + x) * 3) 0)
        + (587 / 1000) * (rgb.getD ((y * W + x) * 3 + 1) 0)
        + (114 / 1000) * (rgb.getD ((y * W + x) * 3 + 2) 0)⌋) ≤ (255 : ℤ) := by
      have h255 : (⌊(255 : ℚ)⌋ : ℤ) = 255 := by norm_num
      have := Int.floor_le_floor hbnds.2
      rw [h255] at this
      exact this
    have := Int.toNat_le_toNat hfl
    simpa using this

/-- Claim C4 witness: the theorem applied to a concrete 2 by 1 buffer at
pixel (1, 0). -/
theorem rgbToGray_stores_weighted_sum_app :
    ∃ gray, rgbToGray [10, 20, 30, 40, 50, 60] 2 1 = some gray ∧
      gray.length = 2 * 1 ∧
      gray.getD (0 * 2 + 1) 0 =
        (⌊(299 / 1000 : ℚ) * ([10, 20, 30, 40, 50, 60].getD ((0 * 2 + 1) * 3) 0)
          + (587 / 1000) * ([10, 20, 30, 40, 50, 60].getD ((0 * 2 + 1) * 3 + 1) 0)
          + (114 / 1000) * ([10, 20, 30, 40, 50, 60].getD ((0 * 2 + 1) * 3 + 2) 0)⌋).toNat ∧
      gray.getD (0 * 2 + 1) 0 ≤ 255 :=
  rgbToGray_stores_weighted_sum [10, 20, 30, 40, 50, 60] 2 1 (by decide) 1 0
    (by decide) (by decide)

/-- Claim C5: the branch boundary is inclusive on the shadow side: input
128 takes the shadow branch, storing the truncation of 128 * 1.1 = 140.8,
and input 129 takes the highlight branch, storing the truncation of
129 * 1.05 = 135.45. -/
theorem adjust_boundary_shadow_inclusive :
    adjustPixel 128 = some 140 ∧ adjustPixel 129 = some 135 := by
  constructor
  · norm_num [adjustPixel, floatToUChar, min_def] ; decide
  · norm_num [adjustPixel, floatToUChar, max_def] ; decide

/-- Claim C6: the crop kernel produces a buffer of exactly
width times height entries, and destination pixel (x, y) is the source
pixel at (x + offsetX, y + offsetY), for any in-bounds Rectangle. -/
theorem crop_extracts_window (src : List ℕ) (srcW srcH : ℕ) (r : Rectangle)
    (hbx : r.offsetX + r.width ≤ srcW) (hby : r.offsetY + r.height ≤ srcH)
    (x y : ℕ) (hx : x < r.width) (hy : y < r.height) :
    (crop src srcW srcH r.width r.height r.offsetX r.offsetY).length = r.width * r.height ∧
    (crop src srcW srcH r.width r.height r.offsetX r.offsetY).getD (y * r.width + x) 0 =
      src.getD ((y + r.offsetY) * srcW + (x + r.offsetX)) 0 := by
  constructor
  · simp [crop]
  · unfold crop
    rw [getD_range_map (flat_index_lt hx hy)]
    unfold cropAt
    rw [flat_index_mod hx, flat_index_div hx]

/-- Claim C6 witness: the theorem applied to the 3 by 2 gradient source
0 1 2 / 3 4 5 with the Rectangle of offset (1, 0) and size 2 by 2, at
destination pixel (1, 1): the value is source entry 5. -/
theorem crop_extracts_window_app :
    (crop [0, 1, 2, 3, 4, 5] 3 2 (2 : ℕ) 2 1 0).length = 2 * 2 ∧
    (crop [0, 1, 2, 3, 4, 5] 3 2 (2 : ℕ) 2 1 0).getD (1 * 2 + 1) 0 =
      [0, 1, 2, 3, 4, 5].getD ((1 + 0) * 3 + (1 + 1)) 0 :=
  crop_extracts_window [0, 1, 2, 3, 4, 5] 3 2 ⟨1, 0, 2, 2⟩ (by decide) (by decide)
    1 1 (by decide) (by decide)

/-- Claim C8: a gray pixel is a fixed point of the reduction: when the
three channel bytes at a pixel all equal v (a byte), the stored gray
value is exactly v, within the one unit of truncation the claim allows. -/
theorem gray_fixed_point (rgb : List ℕ) (W x y v : ℕ) (hv : v ≤ 255)
    (h0 : rgb.getD ((y * W + x) * 3) 0 = v)
    (h1 : rgb.getD ((y * W + x) * 3 + 1) 0 = v)
    (h2 : rgb.getD ((y * W + x) * 3 + 2) 0 = v) :
    rgbToGrayAt rgb W x y = some v :=
  rgbToGrayAt_uniform hv h0 h1 h2

/-- Claim C8 witness: the theorem applied to a single gray pixel of value
100. -/
theorem gray_fixed_point_app :
    rgbToGrayAt [100, 100, 100] 1 0 0 = some 100 :=
  gray_fixed_point [100, 100, 100] 1 0 0 100 (by norm_num) rfl rfl rfl

/-- Claim C10: with the parameters main actually passes (square side
min W H, the centering offset always on x, offsetY zero), every source
index the crop kernel reads is strictly below W * H, in both landscape
and portrait orientation. -/
theorem crop_reads_within_source (W H x y : ℕ) (hW : 0 < W) (hH : 0 < H)
    (hx : x < (cropRect W H).width) (hy : y < (cropRect W H).height) :
    (y + (cropRect W H).offsetY) * W + (x + (cropRect W H).offsetX) < W * H := by
  simp only [cropRect] at hx hy ⊢
  rcases Nat.le_total W H with h | h
  · rw [Nat.min_eq_left h] at hx hy
    rw [Nat.max_eq_right h, Nat.min_eq_left h]
    obtain ⟨a, rfl⟩ := Nat.exists_eq_add_of_le h
    rw [Nat.add_sub_cancel_left]
    have f1 : a / 2 ≤ a := Nat.div_le_self a 2
    have f2 : a ≤ W * a := Nat.le_mul_of_pos_left a hW
    have f3 : y * W + W ≤ W * W := by
      calc y * W + W = (y + 1) * W := by ring
        _ ≤ W * W := Nat.mul_le_mul_right W (by omega)
    have hexp : W * (W + a) = W * W + W * a := by ring
    rw [hexp]
    have hx' : x < W := hx
    nlinarith [f1, f2, f3, hx']
  · rw [Nat.min_eq_right h] at hx hy
    rw [Nat.max_eq_left h, Nat.min_eq_right h]
    obtain ⟨a, rfl⟩ := Nat.exists_eq_add_of_le h
    rw [Nat.add_sub_cancel_left]
    have f1 : a / 2 ≤ a := Nat.div_le_self a 2
    have f3 : y * (H + a) + (H + a) ≤ H * (H + a) := by
      calc y * (H + a) + (H + a) = (y + 1) * (H + a) := by ring
        _ ≤ H * (H + a) := Nat.mul_le_mul_right (H + a) (by omega)
    nlinarith [f1, f3, hx, hy]

/-- Claim C10 witness: the theorem applied to the portrait source 3 by 5
at the corner destination pixel (2, 2): the read index is 9, below 15. -/
theorem crop_reads_within_source_app :
    (2 + (cropRect 3 5).offsetY) * 3 + (2 + (cropRect 3 5).offsetX) < 3 * 5 :=
  crop_reads_within_source 3 5 2 2 (by decide) (by decide) (by decide) (by decide)

/-- Claim C7 counterexample: the claim places the crop offset for a 3 by 5
source on the height axis (offsetY = 1); the Rectangle main computes has
offsetY = 0, the offset 1 going to the x axis instead. -/
theorem pipeline_3x5_offset_not_on_height :
    (cropRect 3 5).offsetY = 0 ∧ (cropRect 3 5).offsetX = 1 := by decide

/-- Claim C7 as amended: for the 3 by 5 input with every channel byte 100,
the pipeline yields a 3 by 3 single-channel output of uniform value 110
(gray 100, crop with offset 1 applied on the width axis, tone lift to
110). -/
theorem pipeline_3x5_uniform_output :
    processBuffer (List.replicate 45 100) 3 5 =
      some (List.replicate 9 110, 3, 3) := by
  have hgray : rgbToGray (List.replicate 45 100) 3 5 = some (List.replicate 15 100) := by
    unfold rgbToGray
    have h : ∀ i ∈ List.range (3 * 5),
        rgbToGrayAt (List.replicate 45 100) 3 (i % 3) (i / 3) =
          some ((fun _ => 100) i) := by
      intro i hi
      have hi' : i < 15 := by simpa using hi
      have hidx : (i / 3 * 3 + i % 3) = i := Nat.div_add_mod' i 3
      apply rgbToGrayAt_uniform (by norm_num) <;> rw [hidx] <;>
        exact getD_replicate_lt (by omega)
    rw [seqOpt_map_some h]
    decide
  have hcrop : crop (List.replicate 15 100) 3 5 3 3 1 0 = List.replicate 9 100 := by
    unfold crop
    have h : ∀ i ∈ List.range (3 * 3),
        cropAt (List.replicate 15 100) 3 1 0 (i % 3) (i / 3) = (fun _ => 100) i := by
      intro i hi
      have hi' : i < 9 := by simpa using hi
      unfold cropAt
      have hidx : (i / 3 + 0) * 3 + (i % 3 + 1) = i + 1 := by omega
      rw [hidx]
      exact getD_replicate_lt (by omega)
    rw [List.map_congr_left h]
    decide
  have hadj : adjustShadowsHighlights (List.replicate 9 100) 3 3 =
      some (List.replicate 9 110) := by
    unfold adjustShadowsHighlights
    have h : ∀ i ∈ List.range (3 * 3),
        adjustPixel ((List.replicate 9 100).getD i 0) = some ((fun _ => 110) i) := by
      intro i hi
      have hi' : i < 9 := by simpa using hi
      rw [getD_replicate_lt hi', adjustPixel_shadow (by norm_num)]
      norm_num
      decide
    rw [seqOpt_map_some h]
    decide
  simp only [processBuffer, hgray, show cropRect 3 5 = ⟨1, 0, 3, 3⟩ from rfl,
    hcrop, hadj]

/-- Claim C9: the batch loop aborts at the first load error with failure
exit status and exactly one diagnostic on the error stream, leaving every
later image unprocessed; when every load succeeds it writes all images in
order and exits with success. -/
theorem batch_abort_on_first_error (fs : String → Option PPMFile) :
    (∀ files : List String, (∀ g ∈ files, loadOk fs g = true) →
      runBatch fs files = ⟨true, files, []⟩) ∧
    (∀ (pre post : List String) (f : String),
      (∀ g ∈ pre, loadOk fs g = true) → loadOk fs f = false →
      (runBatch fs (pre ++ f :: post)).exitSuccess = false ∧
      (runBatch fs (pre ++ f :: post)).written = pre ∧
      (runBatch fs (pre ++ f :: post)).diagnostics.length = 1) := by
  constructor
  · intro files
    induction files with
    | nil => intro _ ; rfl
    | cons a l ih =>
      intro hall
      have ha := hall a (List.mem_cons_self a l)
      have hl := ih fun g hg => hall g (List.mem_cons_of_mem a hg)
      rcases hload : loadPPM a fs with e | p
      · unfold loadOk at ha
        rw [hload] at ha
        simp at ha
      · simp only [runBatch, hload, hl]
  · intro pre post f
    induction pre with
    | nil =>
      intro _ hf
      rcases hload : loadPPM f fs with e | p
      · refine ⟨?_, ?_, ?_⟩ <;> simp [runBatch, hload]
      · exfalso
        unfold loadOk at hf
        rw [hload] at hf
        simp at hf
    | cons a l ih =>
      intro hall hf
      have ha := hall a (List.mem_cons_self a l)
      have hrec := ih (fun g hg => hall g (List.mem_cons_of_mem a hg)) hf
      rcases hload : loadPPM a fs with e | p
      · exfalso
        unfold loadOk at ha
        rw [hload] at ha
        simp at ha
      · refine ⟨?_, ?_, ?_⟩ <;>
          simp [runBatch, hload, hrec.1, hrec.2.1, hrec.2.2]

/-- Claim C9 witness: under sampleFS only img1.ppm loads; the batch over
three names writes img1.ppm alone, emits one diagnostic, and exits with
failure. -/
theorem batch_abort_on_first_error_app :
    (runBatch sampleFS ["img1.ppm", "img2.ppm", "img3.ppm"]).exitSuccess = false ∧
    (runBatch sampleFS ["img1.ppm", "img2.ppm", "img3.ppm"]).written = ["img1.ppm"] ∧
    (runBatch sampleFS ["img1.ppm", "img2.ppm", "img3.ppm"]).diagnostics.length = 1 :=
  (batch_abort_on_first_error sampleFS).2 ["img1.ppm"] ["img3.ppm"] "img2.ppm"
    (by intro g hg
        rw [List.mem_singleton] at hg
        subst hg
        rfl)
    (by rfl)

end ImageCropper
